import Mathlib

/-!
# Verification of the svg2tikz path-data interpreter

A shallow embedding of the path-interpretation core of `svg2tikz.py`
(class `TiKZMaker`): the regex-based numeric token scanner (`floatSpec`,
`dimRe`, `intRe`, `pathRe`), the arc geometry solver (`circle_center`,
`svg_circle_arc`, `svg_ellipse_arc`) and the path interpreter state machine
(`path_chop` and the driving loop of `process_path`).

Modelling conventions:
* Python floats are idealised as exact rationals (`ℚ`).
* Output formatting (`str2u` / `pt2str` rounding, units, the style string)
  is abstracted away: emissions carry the rational values that the code
  passes to the formatters, as structured `Emit` records.
* `math.sqrt` is modelled by `ratSqrt?`, exact on rational perfect squares;
  `math.degrees(math.atan2 y x)` by `atan2deg`, exact on the eight compass
  directions (multiples of 45 degrees) and the origin.  On other inputs the
  Python code would continue with an irrational value that has no exact
  rational counterpart; the solver marks such inputs (`AErr.inexact`) and
  no theorem below draws a conclusion from the numeric values of such a
  run.  This partiality never reaches the interpreter: whatever the solver
  returns, the arc branch of `path_chop` aborts before using it (see
  `execArc`), so the interpreter model is exact.  Genuine Python
  exceptions (ZeroDivisionError, ValueError from `math.sqrt` of a
  negative, TypeError/AttributeError from failed regex chops, the
  TypeError of the `log` call at line 566, the NameError raised inside the
  arc `except` handler, which references the undefined name `_xrot`) are
  modelled by distinguished error values.
-/

/-! ## Numeric token scanner (regexes `floatSpec`, `dimRe`, `intRe`, `pathRe`) -/

/-- Value of a digit string, most significant digit first. -/
def digitsToNat (ds : List Char) : ℕ :=
  ds.foldl (fun a c => 10 * a + (c.toNat - '0'.toNat)) 0

/-- Split a maximal leading run of decimal digits (the regex `\d+`, greedy). -/
def spanDigits (s : List Char) : List Char × List Char :=
  (s.takeWhile Char.isDigit, s.dropWhile Char.isDigit)

/-- The regex `floatSpec = (-?\d+(\.\d+)?([eE]-?\d+)?)` of `TiKZMaker`
(line 43), as a greedy scanner: returns the value of the matched numeric
literal and the unconsumed suffix, or `none` when no prefix matches.
Note the exponent admits an optional `-` but no `+`, exactly as in the
source regex. -/
def scanFloat (s : List Char) : Option (ℚ × List Char) :=
  let (neg, s1) := match s with
    | '-' :: t => (true, t)
    | _ => (false, s)
  let (ds, s2) := spanDigits s1
  if ds.isEmpty then none else
  let ip : ℚ := (digitsToNat ds : ℚ)
  let (fq, s3) := match s2 with
    | '.' :: t =>
      let (fs, t2) := spanDigits t
      if fs.isEmpty then ((0 : ℚ), s2)
      else (((digitsToNat fs : ℚ) / ((10 ^ fs.length : ℕ) : ℚ)), t2)
    | _ => ((0 : ℚ), s2)
  let (ex, s4) := match s3 with
    | c :: t =>
      if c = 'e' ∨ c = 'E' then
        match t with
        | '-' :: t2 =>
          let (es, t3) := spanDigits t2
          if es.isEmpty then ((0 : ℤ), s3) else ((-(digitsToNat es : ℤ) : ℤ), t3)
        | _ =>
          let (es, t3) := spanDigits t
          if es.isEmpty then ((0 : ℤ), s3) else (((digitsToNat es : ℤ) : ℤ), t3)
      else ((0 : ℤ), s3)
    | [] => ((0 : ℤ), s3)
  let emul : ℚ :=
    if 0 ≤ ex then ((10 ^ ex.toNat : ℕ) : ℚ) else 1 / ((10 ^ (-ex).toNat : ℕ) : ℚ)
  let mag : ℚ := (ip + fq) * emul
  some ((if neg then -mag else mag), s4)

/-- The regex `tailSpec = (\s+(\S.*))?` (line 44), an optional group:
skip leading whitespace and return the remainder starting at the first
non-space character; `none` when the group does not participate (no
whitespace follows, or only whitespace remains).  Path-data strings
contain no newline, so `.*` is the whole remainder. -/
def tailSpec (s : List Char) : Option (List Char) :=
  match s with
  | c :: _ =>
    if c.isWhitespace then
      let r := s.dropWhile Char.isWhitespace
      if r.isEmpty then none else some r
    else none
  | [] => none

/-- Result of `dimRe.match` (line 375): the two numeric groups and the
optional tail group 8 that `dimChop` returns as the rest. -/
structure DimM where
  x : ℚ
  y : ℚ
  rest : Option (List Char)
deriving Repr, DecidableEq

/-- The regex `dimRe = floatSpec [, ] floatSpec tailSpec` (line 375) under
`re.match` (anchored at the start only): exactly one comma-or-space
separates the two numeric literals.  `none` models a failed match, on
which `dimChop` raises AttributeError (`m.groups()` on `None`). -/
def dimReMatch (s : List Char) : Option DimM :=
  match scanFloat s with
  | none => none
  | some (x, s1) =>
    match s1 with
    | c :: t =>
      if c = ',' ∨ c = ' ' then
        match scanFloat t with
        | none => none
        | some (y, s2) => some ⟨x, y, tailSpec s2⟩
      else none
    | [] => none

/-- The regex `intRe = (-?\d+) tailSpec` (line 383) under `re.match`:
an integer literal and the optional rest, as used by `intChop`. -/
def intReMatch (s : List Char) : Option (ℤ × Option (List Char)) :=
  let (neg, s1) := match s with
    | '-' :: t => (true, t)
    | _ => (false, s)
  let (ds, s2) := spanDigits s1
  if ds.isEmpty then none
  else some ((if neg then -(digitsToNat ds : ℤ) else (digitsToNat ds : ℤ)), tailSpec s2)

/-- The command letters of `pathRe`'s first group (line 395). -/
def cmdChars : List Char :=
  ['a', 'A', 'c', 'C', 'q', 'Q', 'l', 'L', 'm', 'M', 'h', 'H', 'v', 'V']

/-- Result of `pathRe.match` (line 395): optional command letter (group 1
matches a letter followed by one space), first numeric group 2, optional
second numeric group 6, optional rest group 10. -/
structure PathM where
  spec : Option Char
  x : ℚ
  y : Option ℚ
  rest : Option (List Char)
deriving Repr, DecidableEq

/-- The regex
`pathRe = ([aAcCqQlLmMhHvV] )? floatSpec ([, ] floatSpec)? ([ ,]+(.*))?`
(line 395) under `re.match`.  The command letter, when present, must be
followed by exactly one space; the second numeric literal, when present,
is separated by exactly one comma-or-space; the rest group requires at
least one space-or-comma separator.  `none` models a failed match, on
which `path_chop` prints an error and abandons the stream. -/
def pathReMatch (s : List Char) : Option PathM :=
  let (sp, s0) := match s with
    | c :: c2 :: t =>
      if c ∈ cmdChars ∧ c2 = ' ' then ((some c : Option Char), t) else (none, s)
    | _ => (none, s)
  match scanFloat s0 with
  | none => none
  | some (x, s1) =>
    let (yv, s2) := match s1 with
      | c :: t =>
        if c = ',' ∨ c = ' ' then
          match scanFloat t with
          | some (y, t2) => ((some y : Option ℚ), t2)
          | none => (none, s1)
        else (none, s1)
      | [] => ((none : Option ℚ), s1)
    let rest : Option (List Char) := match s2 with
      | c :: _ =>
        if c = ' ' ∨ c = ',' then some (s2.dropWhile (fun c => c = ' ' ∨ c = ','))
        else none
      | [] => none
    some ⟨sp, x, yv, rest⟩

/-! ## Arc geometry solver -/

/-- Failure of the arc solver: `exc` models a genuine Python exception
(ZeroDivisionError dividing by `l2`, or ValueError from `math.sqrt` of a
negative); `inexact` marks inputs whose square root or angle is
irrational, where the floating-point code would continue approximately
and the exact model abstains. -/
inductive AErr where
  | exc
  | inexact
deriving Repr, DecidableEq

/-- Exact rational square root of a nonnegative rational: `some l` with
`l * l = q` when `q`'s numerator and denominator are perfect squares,
`none` otherwise.  Callers must have ruled out `q < 0` first. -/
def ratSqrt? (q : ℚ) : Option ℚ :=
  let n := q.num.toNat
  let d := q.den
  let sn := Nat.sqrt n
  let sd := Nat.sqrt d
  if sn * sn = n ∧ sd * sd = d then some ((sn : ℚ) / (sd : ℚ)) else none

/-- `TiKZMaker.circle_center` (lines 155-174): the two candidate centers of
a circle of radius `r` through the origin and `(x1, y1)`, via
`l1 = r² - (x1/2)² - (y1/2)²`, `l2 = x1² + y1²`, `l = sqrt (l1/l2)`,
centers `(x1/2 ∓ l y1, y1/2 ± l x1)`. -/
def circle_center (x1 y1 r : ℚ) : Except AErr ((ℚ × ℚ) × (ℚ × ℚ)) :=
  let l1 := r * r - (x1 / 2) * (x1 / 2) - (y1 / 2) * (y1 / 2)
  let l2 := x1 * x1 + y1 * y1
  if l2 = 0 then .error .exc
  else if l1 / l2 < 0 then .error .exc
  else
    match ratSqrt? (l1 / l2) with
    | none => .error .inexact
    | some l =>
      .ok ((x1 / 2 - l * y1, y1 / 2 + l * x1), (x1 / 2 + l * y1, y1 / 2 - l * x1))

/-- `math.degrees (math.atan2 y x)`, exact on the eight compass directions
and the origin (where Python returns `atan2(0,0) = 0`); `none` elsewhere
(irrational angle, out of model). -/
def atan2deg (y x : ℚ) : Option ℚ :=
  if y = 0 ∧ 0 ≤ x then some 0
  else if y = 0 ∧ x < 0 then some 180
  else if x = 0 ∧ 0 < y then some 90
  else if x = 0 ∧ y < 0 then some (-90)
  else if y = x ∧ 0 < x then some 45
  else if y = -x ∧ x < 0 then some 135
  else if y = x ∧ x < 0 then some (-135)
  else if y = -x ∧ 0 < x then some (-45)
  else none

/-- One record of `svg_circle_arc`'s result list:
`(centre_x, centre_y, alpha, beta, radius)`. -/
structure CArc where
  cx : ℚ
  cy : ℚ
  alpha : ℚ
  beta : ℚ
  r : ℚ
deriving Repr, DecidableEq

/-- `TiKZMaker.svg_circle_arc` (lines 176-184): for each candidate center,
`alpha = degrees (atan2 (-y1) (-x1))` (computed from the chord, the same
for both candidates) and `beta = degrees (atan2 (y1 - cy) (x1 - cx))`. -/
def svg_circle_arc (x1 y1 r : ℚ) : Except AErr (CArc × CArc) :=
  match circle_center x1 y1 r with
  | .error e => .error e
  | .ok (p1, p2) =>
    match atan2deg (-y1) (-x1) with
    | none => .error .inexact
    | some alpha =>
      match atan2deg (y1 - p1.2) (x1 - p1.1), atan2deg (y1 - p2.2) (x1 - p2.1) with
      | some b1, some b2 =>
        .ok (⟨p1.1, p1.2, alpha, b1, r⟩, ⟨p2.1, p2.2, alpha, b2, r⟩)
      | _, _ => .error .inexact

/-- One record of `svg_ellipse_arc`'s result list:
`(centre_x, centre_y, alpha, beta, rx, ry)`. -/
structure ArcRec where
  cx : ℚ
  cy : ℚ
  alpha : ℚ
  beta : ℚ
  rx : ℚ
  ry : ℚ
deriving Repr, DecidableEq

/-- `TiKZMaker.svg_ellipse_arc` (lines 186-192): scale the chord's x by
`mu = ry/rx`, solve the circle case of radius `ry`, then unscale each
center's x by `mu`.  `rx = 0` raises ZeroDivisionError computing `mu`. -/
def svg_ellipse_arc (x1 y1 rx ry : ℚ) : Except AErr (ArcRec × ArcRec) :=
  if rx = 0 then .error .exc
  else
    let mu := ry / rx
    match svg_circle_arc (x1 * mu) y1 ry with
    | .error e => .error e
    | .ok (a1, a2) =>
      .ok (⟨a1.cx / mu, a1.cy, a1.alpha, a1.beta, rx, ry⟩,
           ⟨a2.cx / mu, a2.cy, a2.alpha, a2.beta, rx, ry⟩)

/-! ## The path interpreter state machine (`path_chop`, lines 410-581) -/

/-- The interpreter's mutable position state: `(_lastx, _lasty)` is the
current point, `(_startx, _starty)` the current subpath start (lines
37-41). -/
structure St where
  lastx : ℚ
  lasty : ℚ
  startx : ℚ
  starty : ℚ
deriving Repr, DecidableEq

/-- The parsed drawing instruction a successful `path_chop` step
interpreted, recorded with the exact operand values the code extracted
and the relative/absolute mode it derived from the letter case
(`incremental`, line 453).  Ghost data used to state correctness. -/
inductive Instr where
  | move (rel : Bool) (x y : ℚ)
  | line (rel : Bool) (x y : ℚ)
  | hline (rel : Bool) (x : ℚ)
  | vline (rel : Bool) (y : ℚ)
  | cubic (rel : Bool) (x1 y1 x2 y2 x3 y3 : ℚ)
  | quad (rel : Bool) (x1 y1 x2 y2 : ℚ)
  | arc (rel : Bool) (rx ry : ℚ) (xrot lge swp : ℤ) (x y : ℚ)
  | close
deriving Repr, DecidableEq

/-- One line of TikZ output from `path_chop`, with formatting (units,
rounding, the style string) abstracted: each record carries the rational
values the code hands to `pt2str`/`str2u`. -/
inductive Emit where
  /-- `\draw <style> <inc><pt>` from the M/m branch (line 507); `x y` are
  the raw operand pair of the instruction. -/
  | draw (inc : Bool) (x y : ℚ)
  /-- the lone `;` printed before a new `\draw` when not first (line 496). -/
  | semi
  /-- `-- <inc><pt>` from the L/l, h/v, H/V and implicit-repeat branches. -/
  | line (inc : Bool) (x y : ℚ)
  /-- `.. controls <inc><p1> and <inc><p2> .. <inc><p3>` (`path_controls`,
  line 412). -/
  | controls (inc : Bool) (x1 y1 x2 y2 x3 y3 : ℚ)
  /-- `%%%% Warning: check controls` printed in the non-incremental C/c
  case (line 521). -/
  | warnControls
  /-- ` -- <pt2>` with the comment line
  `%% This should be a quadratic Bezier with control point at <pt>`
  from the absolute-Q branch (lines 536-539): a straight line to the
  endpoint `(x, y)`, the comment naming the control point `(cx, cy)`. -/
  | qline (x y cx cy : ℚ)
  /-- `-- cycle` from the Z branch (line 431). -/
  | cycle
  /-- `<%% if comment><inc><pt(cx,cy)> arc (a:b:r1 and r2)` from
  `path_arc` (lines 417-426). -/
  | arcOut (comment : Bool) (inc : Bool) (cx cy a b r1 r2 : ℚ)
deriving Repr, DecidableEq

/-- Recogniser for arc output records, used to state that the interpreter
can in fact never produce one (see `execArc`). -/
def isArcOut (e : Emit) : Bool :=
  match e with
  | .arcOut _ _ _ _ _ _ _ _ => true
  | _ => false

/-- Failure of one `path_chop` step, each constructor one concrete Python
exception raised by the source at that point. -/
inductive Err where
  /-- `float(None)`: a two-operand instruction whose second numeric group
  is missing (line 465 `y1 = float(m.group(6))` with group 6 `None`). -/
  | typeErrorFloatNone
  /-- `dimChop`/`intChop` called with `None` instead of a string (the
  previous chop consumed everything): `re.match(None)` raises TypeError. -/
  | typeErrorNoneArg
  /-- `dimChop`/`intChop` whose regex did not match: `m.groups()` on
  `None` raises AttributeError (lines 378, 386). -/
  | attributeErrorNoMatch
  /-- the arc `except` handler itself raises NameError: line 571 formats
  the undefined name `_xrot`, so the handler aborts before emitting its
  error comment.  Every arc whose operands chop successfully ends here,
  because the `try` block always raises: the solver on infeasible input,
  and otherwise the debug call `self.log('arcs: ', arcs, verbose=2)` of
  line 566, whose `arcs` argument lands positionally in the `verbose`
  parameter that the keyword `verbose=2` then repeats (TypeError). -/
  | nameErrorXrot
  /-- `d[0]` on an empty string (unreachable from the `process_path`
  loop, which guards `len(d) > 0`). -/
  | indexError
deriving Repr, DecidableEq

/-- What a successful `path_chop` returns (line 581 `rest, False, spec,
incremental`), plus the ghost instruction record and the emitted output
lines of that step. -/
structure StepOk where
  st : St
  rest : Option (List Char)
  first : Bool
  spec : Option Char
  incr : Bool
  emits : List Emit
  instr : Option Instr
deriving Repr, DecidableEq

/-- Lines 445-449 of `path_chop`: a bare coordinate pair (no command
letter) reuses `last_spec`, except that after `M`/`m` it becomes the
implicit `L`/`l`. -/
def effImplicit (c : Char) : Char :=
  if c.toUpper = 'M' then (if c = 'M' then 'L' else 'l') else c

/-- Lines 445-453 of `path_chop`: resolve the effective `spec` (a bare
pair reuses `last_spec` through `effImplicit`) and, when a spec is
present, re-derive `incremental` from its letter case
(`spec != spec.upper()`); with no spec at all, `incremental` is passed
through unchanged. -/
def resolveSpec (mspec last_spec : Option Char) (incremental : Bool) :
    Option Char × Bool :=
  let sp : Option Char := match mspec, last_spec with
    | none, some c => some (effImplicit c)
    | s, _ => s
  match sp with
  | none => ((none : Option Char), incremental)
  | some c => (some c, c.toUpper ≠ c)

/-- `path_arc` (lines 417-426): emit
`<inc><centre> arc (alpha:beta:...)` when `lge` else `(beta:alpha:...)`;
the two printed radii are both `str2u(rx)` (line 426).  This function is
dead code: its only call sites (lines 567-568) sit after the `log` call
of line 566, which raises on every execution (see `execArc`). -/
def path_arc (inc : Bool) (a : ArcRec) (lge : Bool) (comment : Bool) : Emit :=
  .arcOut comment inc a.cx a.cy (if lge then a.alpha else a.beta)
    (if lge then a.beta else a.alpha) a.rx a.rx

/-- `TiKZMaker.dimChop` (lines 376-381) as called on the running rest,
which may be `None`: `re.match(None)` raises TypeError and a failed match
raises AttributeError at `m.groups()`. -/
def dimChop (s : Option (List Char)) : Except Err DimM :=
  match s with
  | none => .error .typeErrorNoneArg
  | some str =>
    match dimReMatch str with
    | none => .error .attributeErrorNoMatch
    | some d => .ok d

/-- `TiKZMaker.intChop` (lines 384-387) as called on the running rest,
with the same failure modes as `dimChop`. -/
def intChop (s : Option (List Char)) : Except Err (ℤ × Option (List Char)) :=
  match s with
  | none => .error .typeErrorNoneArg
  | some str =>
    match intReMatch str with
    | none => .error .attributeErrorNoMatch
    | some p => .ok p

/-- The `h`/`v`/`H`/`V` branches of `path_chop` (lines 476-493): one
scalar operand, the other coordinate kept (lowercase) or pinned
(uppercase). -/
def execHV (st : St) (m : PathM) (specF : Option Char) (incF inc : Bool) :
    Except Err StepOk :=
  if specF = some 'h' then
    .ok ⟨⟨st.lastx + m.x, st.lasty, st.startx, st.starty⟩, m.rest, false, specF, incF,
      [.line inc m.x 0], some (.hline true m.x)⟩
  else if specF = some 'v' then
    .ok ⟨⟨st.lastx, st.lasty + m.x, st.startx, st.starty⟩, m.rest, false, specF, incF,
      [.line inc 0 m.x], some (.vline true m.x)⟩
  else if specF = some 'H' then
    .ok ⟨⟨m.x, st.lasty, st.startx, st.starty⟩, m.rest, false, specF, incF,
      [.line inc m.x st.lasty], some (.hline false m.x)⟩
  else
    .ok ⟨⟨st.lastx, m.x, st.startx, st.starty⟩, m.rest, false, specF, incF,
      [.line inc st.lastx m.x], some (.vline false m.x)⟩

/-- The `l`/`L`/implicit branch of `path_chop` (lines 468-475). -/
def execLine (st : St) (m : PathM) (specF : Option Char) (incF inc : Bool) (x1 y1 : ℚ) :
    Except Err StepOk :=
  if specF = some 'L' then
    .ok ⟨⟨x1, y1, st.startx, st.starty⟩, m.rest, false, specF, incF,
      [.line inc x1 y1], some (.line false x1 y1)⟩
  else
    .ok ⟨⟨st.lastx + x1, st.lasty + y1, st.startx, st.starty⟩, m.rest, false, specF,
      incF, [.line inc x1 y1], some (.line true x1 y1)⟩

/-- The `M`/`m` branch of `path_chop` (lines 494-507): a `;` ends the
previous `\draw` when not first; a relative `m` as the very first element
is applied absolutely (`if spec == 'M' or first`, line 497); the new point
becomes the subpath start. -/
def execMove (st : St) (m : PathM) (specF : Option Char) (incF inc first : Bool)
    (x1 y1 : ℚ) : Except Err StepOk :=
  let p := if specF = some 'M' ∨ first then (x1, y1)
    else (st.lastx + x1, st.lasty + y1)
  .ok ⟨⟨p.1, p.2, p.1, p.2⟩, m.rest, false, specF, incF,
    (if first then [] else [Emit.semi]) ++ [.draw inc x1 y1],
    some (.move (specF = some 'm') x1 y1)⟩

/-- The `c`/`C` branch of `path_chop` (lines 508-528): two further
`dimChop`s; in incremental mode the second control point is re-expressed
relative to the endpoint (the "quick hack" of lines 511-521), otherwise a
warning comment is emitted first. -/
def execCubic (st : St) (m : PathM) (specF : Option Char) (incF inc : Bool) (x1 y1 : ℚ) :
    Except Err StepOk :=
  match dimChop m.rest with
  | .error e => .error e
  | .ok d2 =>
    match dimChop d2.rest with
    | .error e => .error e
    | .ok d3 =>
          let emits :=
            if incF then
              [Emit.controls inc x1 y1 (d2.x - d3.x) (d2.y - d3.y) d3.x d3.y]
            else
              [Emit.warnControls, Emit.controls inc x1 y1 d2.x d2.y d3.x d3.y]
          let p := if specF = some 'C' then (d3.x, d3.y)
            else (st.lastx + d3.x, st.lasty + d3.y)
          .ok ⟨⟨p.1, p.2, st.startx, st.starty⟩, d3.rest, false, specF, incF, emits,
            some (.cubic (specF ≠ some 'C') x1 y1 d2.x d2.y d3.x d3.y)⟩

/-- The `Q`/`q` branch of `path_chop` (lines 529-553): one further
`dimChop` for the endpoint.  Absolute `Q` degrades to a straight line to
the endpoint with a comment naming the intended control point; relative
`q` derives the cubic control points `2/3 p1` and `2/3 (p1 - p2)`
(relative to the endpoint) from the 2/3 rule. -/
def execQuad (st : St) (m : PathM) (specF : Option Char) (incF inc : Bool) (x1 y1 : ℚ) :
    Except Err StepOk :=
  match dimChop m.rest with
  | .error e => .error e
  | .ok d2 =>
      if specF = some 'Q' then
        .ok ⟨⟨d2.x, d2.y, st.startx, st.starty⟩, d2.rest, false, specF, incF,
          [.qline d2.x d2.y x1 y1], some (.quad false x1 y1 d2.x d2.y)⟩
      else
        .ok ⟨⟨st.lastx + d2.x, st.lasty + d2.y, st.startx, st.starty⟩, d2.rest,
          false, specF, incF,
          [.controls inc (2 * x1 / 3) (2 * y1 / 3) (2 * (x1 - d2.x) / 3)
            (2 * (y1 - d2.y) / 3) d2.x d2.y],
          some (.quad true x1 y1 d2.x d2.y)⟩

/-- The `A`/`a` branch of `path_chop` (lines 554-578): the first pair
`(x1, y1)` are the radii; three `intChop`s (rotation, large flag, swap
flag) and one `dimChop` (endpoint) follow.  The `try` block then always
raises: either `svg_ellipse_arc` raises (ZeroDivisionError, or ValueError
from `math.sqrt` of a negative), or — when it returns — the debug call
`self.log('arcs: ', arcs, verbose=2)` at line 566 raises
`TypeError: log() got multiple values for argument 'verbose'`: `arcs` is
passed positionally into the `verbose` parameter of
`log(self, msg, verbose=1, end=None)` (line 59) and the keyword
`verbose=2` repeats it, so the call raises before `path_arc` is ever
reached.  Either way the `except` handler raises NameError on the
undefined `_xrot` (line 571): no arc is ever emitted, and the
current-point update of lines 573-578 is never executed. -/
def execArc (_st : St) (m : PathM) (_specF : Option Char) (_incF _inc : Bool) (x1 y1 : ℚ) :
    Except Err StepOk :=
  match intChop m.rest with
  | .error e => .error e
  | .ok (_, t1) =>
    match intChop t1 with
    | .error e => .error e
    | .ok (_, t2) =>
      match intChop t2 with
      | .error e => .error e
      | .ok (_, t3) =>
        match dimChop t3 with
        | .error e => .error e
        | .ok dm =>
          match svg_ellipse_arc dm.x dm.y x1 y1 with
          | .error _ => .error .nameErrorXrot
          | .ok _ => .error .nameErrorXrot

/-- The branch dispatch of `path_chop` after the regex match and the
implicit-repetition resolution: `specF`/`incF` are the resolved `spec` and
`incremental` (lines 445-453), `inc` the `++` flag (line 454), `first` the
first-element flag.  The operand-pair extraction of lines 463-465 applies
to every spec outside `h/H/v/V`, so those four branches are dispatched
before it; the remaining branches follow the source's `if/elif` chain
(lines 468-580); the final case is the source's "didn't process" warning
(lines 579-580), which leaves everything unchanged and continues. -/
def execBranch (st : St) (m : PathM) (specF : Option Char) (incF inc first : Bool) :
    Except Err StepOk :=
  if specF = some 'h' ∨ specF = some 'H' ∨ specF = some 'v' ∨ specF = some 'V' then
    execHV st m specF incF inc
  else
    match m.y with
    | none => .error .typeErrorFloatNone
    | some y1 =>
      if specF = some 'l' ∨ specF = some 'L' ∨ specF = none then
        execLine st m specF incF inc m.x y1
      else if specF = some 'M' ∨ specF = some 'm' then
        execMove st m specF incF inc first m.x y1
      else if specF = some 'c' ∨ specF = some 'C' then
        execCubic st m specF incF inc m.x y1
      else if specF = some 'Q' ∨ specF = some 'q' then
        execQuad st m specF incF inc m.x y1
      else if specF = some 'A' ∨ specF = some 'a' then
        execArc st m specF incF inc m.x y1
      else
        .ok ⟨st, m.rest, false, specF, incF, [], none⟩

/-- `TiKZMaker.path_chop` (lines 410-581), one step: the Z short-circuit
(lines 430-434, returning `None` as the rest so that everything after a
`Z`/`z` is dropped), the `pathRe` match (`None` prints an error to stderr
and abandons the stream, lines 437-439), the implicit-repetition rule
(lines 445-449), the case-derived mode (lines 451-453), the `++` flag
(line 454) and the branch dispatch. -/
def pathChopStep (st : St) (d : List Char) (first : Bool) (last_spec : Option Char)
    (incremental : Bool) : Except Err StepOk :=
  match d with
  | [] => .error .indexError
  | c0 :: _ =>
    if c0 = 'Z' ∨ c0 = 'z' then
      .ok ⟨⟨st.startx, st.starty, st.startx, st.starty⟩, none, false, last_spec,
        incremental, [.cycle], some .close⟩
    else
      match pathReMatch d with
      | none => .ok ⟨st, none, false, last_spec, incremental, [], none⟩
      | some m =>
        let si := resolveSpec m.spec last_spec incremental
        execBranch st m si.1 si.2 (si.2 && !first) first

/-- Result of running the `process_path` interpretation loop (lines
672-675): final state, all emitted output lines, the ghost trace of
interpreted instructions, and the exception that aborted the loop, if
any.  The path id / spec comments, the style handling and the final `;`
of `process_path` are pure formatting and are not modelled. -/
structure RunRes where
  st : St
  emits : List Emit
  instrs : List Instr
  err : Option Err
deriving Repr, DecidableEq

/-- The `while d is not None and len(d) > 0` loop of `process_path`
(line 672), driven by `path_chop`; `fuel` bounds the number of
iterations (each step strictly shortens the string, so any
`fuel ≥ d.length` is enough). -/
def runPathAux : ℕ → St → List Char → Bool → Option Char → Bool → RunRes
  | 0, st, _, _, _, _ => ⟨st, [], [], none⟩
  | fuel + 1, st, d, f, ls, inc =>
    if d.isEmpty then ⟨st, [], [], none⟩
    else
      match pathChopStep st d f ls inc with
      | .error e => ⟨st, [], [], some e⟩
      | .ok r =>
        match r.rest with
        | none => ⟨r.st, r.emits, r.instr.toList, none⟩
        | some d' =>
          let t := runPathAux fuel r.st d' r.first r.spec r.incr
          ⟨t.st, r.emits ++ t.emits, r.instr.toList ++ t.instrs, t.err⟩

/-- Interpret one path-data string from a fresh parser state, as
`process_path` does (`first = True`, `spec = None`, `incremental =
False`, lines 639-674; the position state starts at the class defaults
`(0, 0)`). -/
def runPath (fuel : ℕ) (s : String) : RunRes :=
  runPathAux fuel ⟨0, 0, 0, 0⟩ s.data true none false

/-! ## Replay semantics (the specification side)

`resolveInstr` is written from the claim's words, not from the code: an
absolute command sets the current point to its operand point, a relative
command adds the offsets, `H`/`V` change only one coordinate, a close
returns to the subpath start, and a move also resets the subpath
start. -/

/-- Replay state: (current point, subpath start). -/
abbrev RState := (ℚ × ℚ) × (ℚ × ℚ)

/-- Resolve one instruction's absolute endpoint by hand. -/
def resolveInstr : RState → Instr → RState
  | ⟨p, _⟩, .move rel x y =>
    let q := if rel then (p.1 + x, p.2 + y) else (x, y)
    (q, q)
  | ⟨p, s⟩, .line rel x y => ((if rel then (p.1 + x, p.2 + y) else (x, y)), s)
  | ⟨p, s⟩, .hline rel x => (((if rel then p.1 + x else x), p.2), s)
  | ⟨p, s⟩, .vline rel y => ((p.1, (if rel then p.2 + y else y)), s)
  | ⟨p, s⟩, .cubic rel _ _ _ _ x3 y3 =>
    ((if rel then (p.1 + x3, p.2 + y3) else (x3, y3)), s)
  | ⟨p, s⟩, .quad rel _ _ x2 y2 =>
    ((if rel then (p.1 + x2, p.2 + y2) else (x2, y2)), s)
  | ⟨p, s⟩, .arc rel _ _ _ _ _ x y =>
    ((if rel then (p.1 + x, p.2 + y) else (x, y)), s)
  | ⟨_, s⟩, .close => (s, s)

/-- Replay a whole instruction trace by hand. -/
def replay (st0 : RState) (is : List Instr) : RState :=
  is.foldl resolveInstr st0

/-- The replay view of an interpreter state. -/
def stPair (st : St) : RState := ((st.lastx, st.lasty), (st.startx, st.starty))

/-! ## Reference Bézier semantics (the specification side for the
quadratic-to-cubic conversion): one coordinate of the standard quadratic
and cubic Bézier polynomials, written from the claim, not from the
code. -/

/-- One coordinate of a quadratic Bézier through `p0`, control `p1`,
end `p2`, at parameter `t`. -/
def qBez (p0 p1 p2 t : ℚ) : ℚ :=
  (1 - t) ^ 2 * p0 + 2 * (1 - t) * t * p1 + t ^ 2 * p2

/-- One coordinate of a cubic Bézier through `p0`, controls `c1`, `c2`,
end `p3`, at parameter `t`. -/
def cBez (p0 c1 c2 p3 t : ℚ) : ℚ :=
  (1 - t) ^ 3 * p0 + 3 * (1 - t) ^ 2 * t * c1 + 3 * (1 - t) * t ^ 2 * c2 + t ^ 3 * p3

/-! ## Soundness lemmas for the arc geometry solver -/

theorem ratSqrt?_sound {q l : ℚ} (hq : 0 ≤ q) (h : ratSqrt? q = some l) :
    l * l = q ∧ 0 ≤ l := by
  simp only [ratSqrt?] at h
  split at h
  case isTrue hc =>
    obtain ⟨hn, hd⟩ := hc
    injection h with h
    subst h
    have hd0 : (q.den : ℚ) ≠ 0 := by
      exact_mod_cast q.den_nz
    have hnum : ((q.num.toNat : ℕ) : ℚ) = (q.num : ℚ) := by
      exact_mod_cast Int.toNat_of_nonneg (Rat.num_nonneg.mpr hq)
    constructor
    · have : ((Nat.sqrt q.num.toNat : ℚ) / (Nat.sqrt q.den : ℚ)) *
          ((Nat.sqrt q.num.toNat : ℚ) / (Nat.sqrt q.den : ℚ)) =
          ((Nat.sqrt q.num.toNat * Nat.sqrt q.num.toNat : ℕ) : ℚ) /
          ((Nat.sqrt q.den * Nat.sqrt q.den : ℕ) : ℚ) := by
        push_cast
        ring
      rw [this, hn, hd, hnum]
      exact Rat.num_div_den q
    · positivity
  case isFalse => exact absurd h (by simp)

theorem circle_center_spec {x1 y1 r : ℚ} {ca cb : ℚ × ℚ}
    (h : circle_center x1 y1 r = .ok (ca, cb)) :
    x1 * x1 + y1 * y1 ≠ 0 ∧ r ≠ 0 ∧
    ca.1 ^ 2 + ca.2 ^ 2 = r ^ 2 ∧ (x1 - ca.1) ^ 2 + (y1 - ca.2) ^ 2 = r ^ 2 ∧
    cb.1 ^ 2 + cb.2 ^ 2 = r ^ 2 ∧ (x1 - cb.1) ^ 2 + (y1 - cb.2) ^ 2 = r ^ 2 := by
  simp only [circle_center] at h
  split at h
  case isTrue => exact absurd h (by simp)
  case isFalse hl2 =>
    split at h
    case isTrue => exact absurd h (by simp)
    case isFalse hneg =>
      have hq : 0 ≤ (r * r - x1 / 2 * (x1 / 2) - y1 / 2 * (y1 / 2)) / (x1 * x1 + y1 * y1) :=
        not_lt.mp hneg
      cases heq : ratSqrt? ((r * r - x1 / 2 * (x1 / 2) - y1 / 2 * (y1 / 2)) / (x1 * x1 + y1 * y1)) with
      | none => rw [heq] at h; exact absurd h (by simp)
      | some l =>
        rw [heq] at h
        obtain ⟨hl, hlpos⟩ := ratSqrt?_sound hq heq
        obtain ⟨ca1, ca2⟩ := ca
        obtain ⟨cb1, cb2⟩ := cb
        simp only [Except.ok.injEq, Prod.mk.injEq] at h
        obtain ⟨⟨h1, h2⟩, h3, h4⟩ := h
        subst h1
        subst h2
        subst h3
        subst h4
        have hkey : l * l * (x1 * x1 + y1 * y1) =
            r * r - x1 / 2 * (x1 / 2) - y1 / 2 * (y1 / 2) := by
          rw [hl]
          exact div_mul_cancel₀ _ hl2
        have hl2pos : 0 < x1 * x1 + y1 * y1 :=
          lt_of_le_of_ne (by nlinarith [sq_nonneg x1, sq_nonneg y1]) (Ne.symm hl2)
        have hl1 : 0 ≤ r * r - x1 / 2 * (x1 / 2) - y1 / 2 * (y1 / 2) := by
          have := mul_nonneg hq hl2pos.le
          rwa [div_mul_cancel₀ _ hl2] at this
        refine ⟨hl2, ?_, ?_, ?_, ?_, ?_⟩
        · intro h0
          rw [h0] at hl1
          nlinarith
        · linear_combination hkey
        · linear_combination hkey
        · linear_combination hkey
        · linear_combination hkey

theorem svg_circle_arc_ok {x1 y1 r : ℚ} {c1 c2 : CArc}
    (h : svg_circle_arc x1 y1 r = .ok (c1, c2)) :
    ∃ ca cb : ℚ × ℚ, circle_center x1 y1 r = .ok (ca, cb) ∧
      c1.cx = ca.1 ∧ c1.cy = ca.2 ∧ c2.cx = cb.1 ∧ c2.cy = cb.2 ∧ c1.r = r ∧ c2.r = r := by
  simp only [svg_circle_arc] at h
  split at h
  · exact absurd h (by simp)
  · rename_i pa pb hcc
    split at h
    · exact absurd h (by simp)
    · split at h
      · rename_i b1 b2 hb1 hb2
        simp only [Except.ok.injEq, Prod.mk.injEq] at h
        obtain ⟨h1, h2⟩ := h
        exact ⟨pa, pb, hcc, by simp [← h1], by simp [← h1], by simp [← h2], by simp [← h2],
          by simp [← h1], by simp [← h2]⟩
      · exact absurd h (by simp)

theorem svg_ellipse_arc_spec {x1 y1 rx ry : ℚ} {a1 a2 : ArcRec}
    (h : svg_ellipse_arc x1 y1 rx ry = .ok (a1, a2)) :
    a1.rx = rx ∧ a1.ry = ry ∧ a2.rx = rx ∧ a2.ry = ry ∧ rx ≠ 0 ∧ ry ≠ 0 ∧
    (0 - a1.cx) ^ 2 * ry ^ 2 + (0 - a1.cy) ^ 2 * rx ^ 2 = rx ^ 2 * ry ^ 2 ∧
    (x1 - a1.cx) ^ 2 * ry ^ 2 + (y1 - a1.cy) ^ 2 * rx ^ 2 = rx ^ 2 * ry ^ 2 ∧
    (0 - a2.cx) ^ 2 * ry ^ 2 + (0 - a2.cy) ^ 2 * rx ^ 2 = rx ^ 2 * ry ^ 2 ∧
    (x1 - a2.cx) ^ 2 * ry ^ 2 + (y1 - a2.cy) ^ 2 * rx ^ 2 = rx ^ 2 * ry ^ 2 := by
  simp only [svg_ellipse_arc] at h
  split at h
  · exact absurd h (by simp)
  · rename_i hrx
    split at h
    · exact absurd h (by simp)
    · rename_i c1 c2 hca
      simp only [Except.ok.injEq, Prod.mk.injEq] at h
      obtain ⟨h1, h2⟩ := h
      obtain ⟨ca, cb, hcc, e1, e2, e3, e4, _, _⟩ := svg_circle_arc_ok hca
      obtain ⟨hl2, hry, d1, d2, d3, d4⟩ := circle_center_spec hcc
      subst h1
      subst h2
      have hu : ry / rx * rx = ry := div_mul_cancel₀ ry hrx
      have hw1 : ca.1 / (ry / rx) * ry = ca.1 * rx := by
        rw [div_div_eq_mul_div]
        exact div_mul_cancel₀ _ hry
      have hw2 : cb.1 / (ry / rx) * ry = cb.1 * rx := by
        rw [div_div_eq_mul_div]
        exact div_mul_cancel₀ _ hry
      have hx : x1 * ry = x1 * (ry / rx) * rx := by rw [mul_assoc, hu]
      refine ⟨rfl, rfl, rfl, rfl, hrx, hry, ?_, ?_, ?_, ?_⟩
      · dsimp only
        rw [e1, e2]
        linear_combination (ca.1 / (ry / rx) * ry + ca.1 * rx) * hw1 + rx ^ 2 * d1
      · dsimp only
        rw [e1, e2]
        linear_combination
          ((x1 - ca.1 / (ry / rx)) * ry + (x1 * (ry / rx) - ca.1) * rx) * hx -
            ((x1 - ca.1 / (ry / rx)) * ry + (x1 * (ry / rx) - ca.1) * rx) * hw1 +
            rx ^ 2 * d2
      · dsimp only
        rw [e3, e4]
        linear_combination (cb.1 / (ry / rx) * ry + cb.1 * rx) * hw2 + rx ^ 2 * d3
      · dsimp only
        rw [e3, e4]
        linear_combination
          ((x1 - cb.1 / (ry / rx)) * ry + (x1 * (ry / rx) - cb.1) * rx) * hx -
            ((x1 - cb.1 / (ry / rx)) * ry + (x1 * (ry / rx) - cb.1) * rx) * hw2 +
            rx ^ 2 * d4

/-- Invariants of one successful interpreter step from state `st`; the
last conjunct records that no step produces an arc output record (the
arc branch always aborts, see `execArc`). -/
def stepSound (st : St) (first : Bool) (r : StepOk) : Prop :=
  r.first = false ∧
  (r.instr = none → r.st = st) ∧
  (∀ i, r.instr = some i →
    stPair r.st = resolveInstr (stPair st) i ∨
    (first = true ∧ ∃ x y : ℚ, i = Instr.move true x y ∧ r.st = ⟨x, y, x, y⟩)) ∧
  r.emits.filter isArcOut = []

theorem execHV_master {st : St} {m : PathM} {specF : Option Char} {incF inc first : Bool}
    {r : StepOk} (h : execHV st m specF incF inc = .ok r) :
    r.spec = specF ∧ r.incr = incF ∧ stepSound st first r := by
  unfold execHV at h
  split at h
  · injection h with h
    subst h
    exact ⟨rfl, rfl, rfl, by simp, fun i hi => by
      injection hi with hi
      subst hi
      left
      simp [stPair, resolveInstr], by rfl⟩
  · split at h
    · injection h with h
      subst h
      exact ⟨rfl, rfl, rfl, by simp, fun i hi => by
        injection hi with hi
        subst hi
        left
        simp [stPair, resolveInstr], by rfl⟩
    · split at h
      · injection h with h
        subst h
        exact ⟨rfl, rfl, rfl, by simp, fun i hi => by
          injection hi with hi
          subst hi
          left
          simp [stPair, resolveInstr], by rfl⟩
      · injection h with h
        subst h
        exact ⟨rfl, rfl, rfl, by simp, fun i hi => by
          injection hi with hi
          subst hi
          left
          simp [stPair, resolveInstr], by rfl⟩

theorem execLine_master {st : St} {m : PathM} {specF : Option Char} {incF inc first : Bool}
    {x1 y1 : ℚ} {r : StepOk} (h : execLine st m specF incF inc x1 y1 = .ok r) :
    r.spec = specF ∧ r.incr = incF ∧ stepSound st first r := by
  unfold execLine at h
  split at h
  · injection h with h
    subst h
    exact ⟨rfl, rfl, rfl, by simp, fun i hi => by
      injection hi with hi
      subst hi
      left
      simp [stPair, resolveInstr], by rfl⟩
  · injection h with h
    subst h
    exact ⟨rfl, rfl, rfl, by simp, fun i hi => by
      injection hi with hi
      subst hi
      left
      simp [stPair, resolveInstr], by rfl⟩

theorem execMove_master {st : St} {m : PathM} {specF : Option Char} {incF inc first : Bool}
    {x1 y1 : ℚ} {r : StepOk} (hMm : specF = some 'M' ∨ specF = some 'm')
    (h : execMove st m specF incF inc first x1 y1 = .ok r) :
    r.spec = specF ∧ r.incr = incF ∧ stepSound st first r := by
  unfold execMove at h
  injection h with h
  subst h
  refine ⟨rfl, rfl, rfl, by simp, ?_, by cases first <;> rfl⟩
  intro i hi
  injection hi with hi
  subst hi
  rcases hMm with hM | hm
  · subst hM
    left
    simp [stPair, resolveInstr]
  · subst hm
    by_cases hf : first = true
    · right
      subst hf
      exact ⟨rfl, x1, y1, by simp, by simp⟩
    · left
      have hf' : first = false := by
        cases first
        · rfl
        · exact absurd rfl hf
      subst hf'
      simp [stPair, resolveInstr]

theorem execCubic_master {st : St} {m : PathM} {specF : Option Char}
    {incF inc first : Bool} {x1 y1 : ℚ} {r : StepOk}
    (h : execCubic st m specF incF inc x1 y1 = .ok r) :
    r.spec = specF ∧ r.incr = incF ∧ stepSound st first r := by
  unfold execCubic at h
  split at h
  · exact absurd h (by simp)
  · split at h
    · exact absurd h (by simp)
    · injection h with h
      subst h
      refine ⟨rfl, rfl, rfl, by simp, ?_, by cases incF <;> rfl⟩
      intro i hi
      injection hi with hi
      subst hi
      left
      by_cases hC : specF = some 'C'
      · simp [stPair, resolveInstr, hC]
      · simp [stPair, resolveInstr, hC]

theorem execQuad_master {st : St} {m : PathM} {specF : Option Char}
    {incF inc first : Bool} {x1 y1 : ℚ} {r : StepOk}
    (h : execQuad st m specF incF inc x1 y1 = .ok r) :
    r.spec = specF ∧ r.incr = incF ∧ stepSound st first r := by
  unfold execQuad at h
  split at h
  · exact absurd h (by simp)
  · split at h
    · injection h with h
      subst h
      exact ⟨rfl, rfl, rfl, by simp, fun i hi => by
        injection hi with hi
        subst hi
        left
        simp [stPair, resolveInstr], by rfl⟩
    · injection h with h
      subst h
      exact ⟨rfl, rfl, rfl, by simp, fun i hi => by
        injection hi with hi
        subst hi
        left
        simp [stPair, resolveInstr], by rfl⟩

theorem execArc_no_ok {st : St} {m : PathM} {specF : Option Char}
    {incF inc : Bool} {x1 y1 : ℚ} {r : StepOk}
    (h : execArc st m specF incF inc x1 y1 = .ok r) : False := by
  unfold execArc at h
  split at h
  · exact absurd h (by simp)
  · split at h
    · exact absurd h (by simp)
    · split at h
      · exact absurd h (by simp)
      · split at h
        · exact absurd h (by simp)
        · split at h
          · exact absurd h (by simp)
          · exact absurd h (by simp)

theorem execBranch_master {st : St} {m : PathM} {specF : Option Char}
    {incF inc first : Bool} {r : StepOk}
    (h : execBranch st m specF incF inc first = .ok r) :
    r.spec = specF ∧ r.incr = incF ∧ stepSound st first r := by
  unfold execBranch at h
  split at h
  · exact execHV_master h
  · split at h
    · exact absurd h (by simp)
    · split at h
      · exact execLine_master h
      · split at h
        · rename_i hMm
          exact execMove_master hMm h
        · split at h
          · exact execCubic_master h
          · split at h
            · exact execQuad_master h
            · split at h
              · exact (execArc_no_ok h).elim
              · injection h with h
                subst h
                exact ⟨rfl, rfl, rfl, fun _ => rfl, by simp, rfl⟩

theorem pathChopStep_master {st : St} {d : List Char} {first : Bool}
    {ls : Option Char} {inc : Bool} {r : StepOk}
    (h : pathChopStep st d first ls inc = .ok r) : stepSound st first r := by
  unfold pathChopStep at h
  split at h
  · exact absurd h (by simp)
  · split at h
    · injection h with h
      subst h
      refine ⟨rfl, by simp, ?_, rfl⟩
      intro i hi
      injection hi with hi
      subst hi
      left
      simp [stPair, resolveInstr]
    · split at h
      · injection h with h
        subst h
        exact ⟨rfl, fun _ => rfl, by simp, rfl⟩
      · exact (execBranch_master h).2.2

theorem step_replay {st : St} {f : Bool} {r : StepOk}
    (hs : stepSound st f r) (hf : f = true → st.lastx = 0 ∧ st.lasty = 0) :
    replay (stPair st) r.instr.toList = stPair r.st := by
  obtain ⟨-, hnone, hsome, -⟩ := hs
  cases hri : r.instr with
  | none => simp [replay, hnone hri]
  | some i =>
    simp only [Option.toList_some, replay, List.foldl_cons, List.foldl_nil]
    rcases hsome i hri with hres | ⟨hft, x, y, hi, hst⟩
    · exact hres.symm
    · obtain ⟨hx0, hy0⟩ := hf hft
      subst hi
      rw [hst]
      simp [stPair, resolveInstr, hx0, hy0]

theorem runPathAux_replay (fuel : ℕ) :
    ∀ (st : St) (d : List Char) (f : Bool) (ls : Option Char) (inc : Bool),
      (f = true → st.lastx = 0 ∧ st.lasty = 0) →
      stPair (runPathAux fuel st d f ls inc).st =
        replay (stPair st) (runPathAux fuel st d f ls inc).instrs := by
  induction fuel with
  | zero =>
    intro st d f ls inc hf
    simp [runPathAux, replay]
  | succ n ih =>
    intro st d f ls inc hf
    rw [runPathAux]
    split
    · simp [replay]
    · cases hstep : pathChopStep st d f ls inc with
      | error e => simp [replay]
      | ok r =>
        have hs := pathChopStep_master hstep
        cases hrest : r.rest with
        | none =>
          simp only [hrest]
          exact (step_replay hs hf).symm
        | some d2 =>
          simp only [hrest]
          have ihh := ih r.st d2 r.first r.spec r.incr (by simp [hs.1])
          calc stPair (runPathAux n r.st d2 r.first r.spec r.incr).st
              = replay (stPair r.st) (runPathAux n r.st d2 r.first r.spec r.incr).instrs :=
                ihh
            _ = replay (replay (stPair st) r.instr.toList)
                  (runPathAux n r.st d2 r.first r.spec r.incr).instrs := by
                rw [step_replay hs hf]
            _ = replay (stPair st)
                  (r.instr.toList ++ (runPathAux n r.st d2 r.first r.spec r.incr).instrs) := by
                rw [replay, replay, replay, List.foldl_append]

/-- No interpretation run ever produces an arc output record: the arc
branch of `path_chop` aborts before `path_arc` on every input (see
`execArc`). -/
theorem runPathAux_noArc (fuel : ℕ) :
    ∀ (st : St) (d : List Char) (f : Bool) (ls : Option Char) (inc : Bool),
      (runPathAux fuel st d f ls inc).emits.filter isArcOut = [] := by
  induction fuel with
  | zero =>
    intro st d f ls inc
    rfl
  | succ n ih =>
    intro st d f ls inc
    rw [runPathAux]
    split
    · rfl
    · cases hstep : pathChopStep st d f ls inc with
      | error e => rfl
      | ok r =>
        have hs := pathChopStep_master hstep
        dsimp only
        cases hrest : r.rest with
        | none => exact hs.2.2.2
        | some d2 =>
          show (r.emits ++ (runPathAux n r.st d2 r.first r.spec r.incr).emits).filter
              isArcOut = []
          rw [List.filter_append, hs.2.2.2, ih r.st d2 r.first r.spec r.incr]
          rfl

/-- A string starting with `Z` or `z` matches neither the command group
nor `floatSpec`, so `pathRe` fails on it. -/
theorem pathReMatch_Zz {c0 : Char} (hz : c0 = 'Z' ∨ c0 = 'z') (t : List Char) :
    pathReMatch (c0 :: t) = none := by
  rcases hz with rfl | rfl <;>
  · cases t with
    | nil => with_unfolding_all rfl
    | cons c2 t2 =>
      unfold pathReMatch
      dsimp only
      rw [if_neg (by rintro ⟨hmem, -⟩; simp [cmdChars] at hmem)]
      with_unfolding_all rfl

/-- On a string accepted by `pathRe`, one interpreter step is the branch
dispatch at the spec resolved by `resolveSpec`. -/
theorem pathChopStep_of_match {st : St} {d : List Char} {f : Bool} {ls : Option Char}
    {inc : Bool} {m : PathM} (hm : pathReMatch d = some m) :
    pathChopStep st d f ls inc =
      execBranch st m (resolveSpec m.spec ls inc).1 (resolveSpec m.spec ls inc).2
        ((resolveSpec m.spec ls inc).2 && !f) f := by
  cases d with
  | nil =>
    rw [show pathReMatch ([] : List Char) = none from by with_unfolding_all rfl] at hm
    exact absurd hm (by simp)
  | cons c0 t =>
    unfold pathChopStep
    dsimp only
    split
    · rename_i hz
      rw [pathReMatch_Zz hz t] at hm
      exact absurd hm (by simp)
    · rw [hm]

/-! ## Claim theorems -/

/-- Claim C1: current-point tracking invariant.  (1) Interpreting any
path-data string from a fresh parser state, the tracked current point and
subpath start after the run equal the result of replaying the trace of
interpreted instructions by hand (`resolveInstr`: absolute commands set
the point to the operand point, relative commands add the offsets, `H`/`V`
change only one coordinate, ClosePath returns to the subpath start); this
holds after every prefix as well, since the equality is preserved by each
step.  (2) After every successful non-first step from any state, the
tracked point equals the interpreted instruction's resolved absolute
endpoint. -/
theorem C1_current_point_tracking :
    (∀ (fuel : ℕ) (s : String),
      stPair (runPath fuel s).st = replay ((0, 0), (0, 0)) (runPath fuel s).instrs) ∧
    (∀ (st : St) (d : List Char) (ls : Option Char) (inc : Bool) (r : StepOk) (i : Instr),
      pathChopStep st d false ls inc = .ok r → r.instr = some i →
      stPair r.st = resolveInstr (stPair st) i) := by
  constructor
  · intro fuel s
    exact runPathAux_replay fuel ⟨0, 0, 0, 0⟩ s.data true none false (fun _ => ⟨rfl, rfl⟩)
  · intro st d ls inc r i hstep hi
    rcases (pathChopStep_master hstep).2.2.1 i hi with h | ⟨hft, -⟩
    · exact h
    · exact absurd hft (by simp)

/-- Witness for C1: the step `L 1,2` from state `(5,6)` (subpath start
`(7,8)`) moves the tracked point to the resolved absolute endpoint
`(1,2)`. -/
theorem C1_witness :
    stPair ⟨1, 2, 7, 8⟩ = resolveInstr (stPair ⟨5, 6, 7, 8⟩) (.line false 1 2) :=
  C1_current_point_tracking.2 ⟨5, 6, 7, 8⟩ "L 1,2".data none false
    ⟨⟨1, 2, 7, 8⟩, none, false, some 'L', false, [.line false 1 2],
      some (.line false 1 2)⟩
    (.line false 1 2) (by with_unfolding_all rfl) rfl

/-- Claim C7, counterexample: the claim says interpretation continues
with the instructions that follow a `Z`, but the Z branch returns `None`
as the remaining stream (line 434), so the trailing `L 9,9` of
`"M 0,0 L 1,1 Z L 9,9"` is discarded: the run emits only the move, the
line and the cycle, and no `-- (9,9)` line ever appears. -/
theorem C7_counterexample :
    runPath 10 "M 0,0 L 1,1 Z L 9,9" =
      ⟨⟨0, 0, 0, 0⟩, [.draw false 0 0, .line false 1 1, .cycle],
        [.move false 0 0, .line false 1 1, .close], none⟩ ∧
    Emit.line false 9 9 ∉
      [Emit.draw false 0 0, Emit.line false 1 1, Emit.cycle] := by
  constructor
  · with_unfolding_all rfl
  · intro hmem
    simp only [List.mem_cons, List.not_mem_nil, or_false] at hmem
    rcases hmem with h | h | h
    · exact absurd h (by simp)
    · injection h with h1 h2 h3
      norm_num at h2
    · exact absurd h (by simp)

/-- Claim C7, amended: a `Z`/`z` instruction repositions the current
point to the subpath start and emits the cycle primitive, with no other
state effect — but it also ends interpretation of the command stream:
the returned rest is `none`, so any instructions after the `Z` are
dropped. -/
theorem C7_amended :
    (∀ (t : List Char) (st : St) (f : Bool) (ls : Option Char) (inc : Bool),
      pathChopStep st ('Z' :: t) f ls inc =
        .ok ⟨⟨st.startx, st.starty, st.startx, st.starty⟩, none, false, ls, inc,
          [.cycle], some .close⟩) ∧
    (∀ (t : List Char) (st : St) (f : Bool) (ls : Option Char) (inc : Bool),
      pathChopStep st ('z' :: t) f ls inc =
        .ok ⟨⟨st.startx, st.starty, st.startx, st.starty⟩, none, false, ls, inc,
          [.cycle], some .close⟩) :=
  ⟨fun _ _ _ _ _ => rfl, fun _ _ _ _ _ => rfl⟩

/-- Claim C9, counterexample: the claim says every path-data string that
ends mid-instruction fails with an error surfaced to the caller, but on
`"M 0,0 H"` the trailing `H` finds none of its one required operand and
no error surfaces: the bare letter no longer matches `pathRe` at all, so
`path_chop` only prints a message to stderr and returns `None` as the
rest (lines 437-439), and the interpretation loop ends normally — the
run finishes with `err = none`, keeping the emitted MoveTo. -/
theorem C9_counterexample :
    runPath 10 "M 0,0 H" =
      ⟨⟨0, 0, 0, 0⟩, [.draw false 0 0], [.move false 0 0], none⟩ := by
  with_unfolding_all rfl

/-- Claim C9, amended: truncation surfaces an error only when the
truncated tail still matches `pathRe`, i.e. the command letter and its
first numeric group were consumed and only the second is missing.
(1) For every step whose `pathRe` match lacks the second numeric group
and whose resolved spec is not one of the one-operand commands
`h`/`H`/`v`/`V`, the step fails with the `float(None)` TypeError
(line 465, the code's realisation of the spec's `TruncatedPathData`).
(2) On `"M 0,0 L 1,"` this error propagates out of the interpretation
loop and the already-emitted `MoveTo(0,0)` output and instruction are
preserved, not rolled back.  When instead the truncated tail no longer
matches `pathRe` (a bare trailing command letter, see the
counterexample), interpretation ends normally and no error surfaces. -/
theorem C9_amended :
    (∀ (st : St) (m : PathM) (specF : Option Char) (incF inc first : Bool),
      ¬(specF = some 'h' ∨ specF = some 'H' ∨ specF = some 'v' ∨ specF = some 'V') →
      m.y = none →
      execBranch st m specF incF inc first = .error .typeErrorFloatNone) ∧
    runPath 10 "M 0,0 L 1," =
      ⟨⟨0, 0, 0, 0⟩, [.draw false 0 0], [.move false 0 0],
        some .typeErrorFloatNone⟩ := by
  constructor
  · intro st m specF incF inc first h hy
    unfold execBranch
    rw [if_neg h, hy]
  · with_unfolding_all rfl

/-- Witness for C9 (amended): an `L` step whose second numeric group is
missing fails with the `float(None)` TypeError. -/
theorem C9_witness :
    execBranch ⟨0, 0, 0, 0⟩ ⟨some 'L', 1, none, none⟩ (some 'L') false false false =
      .error .typeErrorFloatNone :=
  C9_amended.1 ⟨0, 0, 0, 0⟩ ⟨some 'L', 1, none, none⟩ (some 'L') false false false
    (by decide) rfl

/-- Claim C4, counterexample: the arc `a 1,1 0 0 0 4,0` (radius 1,
chord length 4) is infeasible (`h² < 0`); the claim says the radius is
scaled up to the minimum feasible value before any error is reported, but
the interpreter performs no scaling anywhere: the solver raises
(ValueError from `math.sqrt`), the `except` handler itself raises
NameError on the undefined `_xrot` before emitting anything, and the run
aborts with the unscaled radius, having emitted no arc at all. -/
theorem C4_counterexample :
    runPath 10 "m 0,0 a 1,1 0 0 0 4,0" =
      ⟨⟨0, 0, 0, 0⟩, [.draw false 0 0], [.move true 0 0],
        some .nameErrorXrot⟩ := by
  with_unfolding_all rfl

/-- Claim C4, amended: an arc whose radius is too small for its chord is
not scaled; the solver fails with the Python exception chain
(`ValueError` from the negative square root, then `NameError` on `_xrot`
inside the handler), regardless of the interpreter state, and the solver
itself rejects the radius: for `r = 1` against chord `(4,0)`,
`circle_center` fails. -/
theorem C4_amended :
    (∀ (st : St) (ls : Option Char) (inc : Bool),
      pathChopStep st "a 1,1 0 0 0 4,0".data false ls inc = .error .nameErrorXrot) ∧
    circle_center 4 0 1 = .error .exc := by
  constructor
  · intro st ls inc
    cases ls with
    | none => with_unfolding_all rfl
    | some c => with_unfolding_all rfl
  · with_unfolding_all rfl

/-- Claim C8, counterexample: the claim says separators are optional —
`"1.2-3.4"` scans as the two numbers `1.2` and `-3.4`, and a command
letter may be immediately followed by its first operand.  Both are false:
`dimRe` requires exactly one comma-or-space between its two numeric
literals, so it fails to match `"1.2-3.4"` at all, and `pathRe`'s
command group requires a space after the letter, so `"M0,0"` does not
match. -/
theorem C8_counterexample :
    dimReMatch "1.2-3.4".data = none ∧ pathReMatch "M0,0".data = none := by
  constructor
  · with_unfolding_all rfl
  · with_unfolding_all rfl

/-- Claim C8, amended: separators are required, not optional — `dimRe`
demands exactly one comma or space between the two numeric literals of a
pair (both `"1.2 -3.4"` and `"1.2,-3.4"` scan as `1.2` and `-3.4`, while
a bare sign does not act as an implicit separator), a command letter must
be followed by one space before its first operand, and numeric literals
follow `-?digit+(.digit+)?([eE]-?digit+)?`: a negative exponent is
accepted (`"1e-2"` is `1/100`) but an explicit `+` in the exponent is
not (`"1e+2"` scans as the number `1` with `"e+2"` left over); `pathRe`
itself reads `"1.2-3.4"` as the single number `1.2` with no second
operand. -/
theorem C8_amended :
    dimReMatch "1.2 -3.4".data = some ⟨6/5, -17/5, none⟩ ∧
    dimReMatch "1.2,-3.4".data = some ⟨6/5, -17/5, none⟩ ∧
    pathReMatch "M 0,0".data = some ⟨some 'M', 0, some 0, none⟩ ∧
    scanFloat "1e-2".data = some (1/100, []) ∧
    scanFloat "1e+2".data = some (1, "e+2".data) ∧
    pathReMatch "1.2-3.4".data = some ⟨none, 6/5, none, none⟩ := by
  refine ⟨?_, ?_, ?_, ?_, ?_, ?_⟩ <;> with_unfolding_all rfl

/-- Claim C10, evaluated: the claim describes the radius formatting of
emitted arc records — `path_arc` (line 426) does print `str2u(rx),
str2u(rx)`, repeating the x-radius and dropping the y-radius — but that
code is dead: the interpreter can never emit an arc record.  On every arc
instruction whose operands parse, the `try` block of the `A`/`a` branch
raises before `path_arc` is reached (on solver success,
`self.log('arcs: ', arcs, verbose=2)` at line 566 raises TypeError
because `arcs` is passed positionally into the `verbose` parameter that
the keyword `verbose=2` then repeats), and the `except` handler raises
NameError on the undefined `_xrot`.  (1) No run, from any state, ever
emits an arc record.  (2) The feasible arc `a 2,2 0 0 0 2,2` — on which
the solver succeeds — aborts with that NameError, emitting no arc. -/
theorem C10_no_arc_emitted :
    (∀ (fuel : ℕ) (st : St) (d : List Char) (f : Bool) (ls : Option Char) (inc : Bool),
      (runPathAux fuel st d f ls inc).emits.filter isArcOut = []) ∧
    runPath 10 "m 0,0 a 2,2 0 0 0 2,2" =
      ⟨⟨0, 0, 0, 0⟩, [.draw false 0 0], [.move true 0 0],
        some .nameErrorXrot⟩ := by
  constructor
  · exact runPathAux_noArc
  · with_unfolding_all rfl

/-- Claim C2: implicit repetition.  (1) For every step whose input is
accepted by `pathRe` with no leading command letter (a bare coordinate
pair), the step interprets it under the last command, except that a bare
pair after `M` becomes `L` and after `m` becomes `l`, and the
relative/absolute mode is the letter case of the last command.
(2) Interpreting `"m 0,0 1,1"` yields a relative MoveTo(0,0) followed by
a relative LineTo(1,1) — not a second MoveTo. -/
theorem C2_implicit_repetition :
    (∀ (st : St) (d : List Char) (ls : Char) (inc : Bool) (m : PathM) (r : StepOk),
      ls ∈ cmdChars →
      pathReMatch d = some m → m.spec = none →
      pathChopStep st d false (some ls) inc = .ok r →
      r.spec = some (if ls = 'M' then 'L' else if ls = 'm' then 'l' else ls) ∧
      r.incr = (ls.toUpper != ls)) ∧
    runPath 10 "m 0,0 1,1" =
      ⟨⟨1, 1, 0, 0⟩, [.draw false 0 0, .line true 1 1],
        [.move true 0 0, .line true 1 1], none⟩ := by
  constructor
  · intro st d ls inc m r hmem hpm hspec hstep
    rw [pathChopStep_of_match hpm] at hstep
    have h1 := (execBranch_master hstep).1
    have h2 := (execBranch_master hstep).2.1
    rw [hspec] at h1 h2
    fin_cases hmem <;>
      exact ⟨h1.trans (by with_unfolding_all rfl),
        h2.trans (by with_unfolding_all rfl)⟩
  · with_unfolding_all rfl

/-- Witness for C2: from last command `m`, the bare pair `"1,1"` is
interpreted as an implicit relative `l`. -/
theorem C2_witness :
    (⟨⟨1, 1, 0, 0⟩, none, false, some 'l', true, [.line true 1 1],
        some (.line true 1 1)⟩ : StepOk).spec = some (if 'm' = 'M' then 'L'
          else if 'm' = 'm' then 'l' else 'm') ∧
    (⟨⟨1, 1, 0, 0⟩, none, false, some 'l', true, [.line true 1 1],
        some (.line true 1 1)⟩ : StepOk).incr = ('m'.toUpper != 'm') :=
  C2_implicit_repetition.1 ⟨0, 0, 0, 0⟩ "1,1".data 'm' true
    ⟨none, 1, some 1, none⟩
    ⟨⟨1, 1, 0, 0⟩, none, false, some 'l', true, [.line true 1 1],
      some (.line true 1 1)⟩
    (by with_unfolding_all decide) (by with_unfolding_all rfl) rfl
    (by with_unfolding_all rfl)

/-- Claim C5: relative quadratic-to-cubic conversion.  (1) A `q` step
with control operand `(m.x, y1)` and endpoint operand `(d2.x, d2.y)`
emits one cubic-controls record whose control points are, in the emitted
relative frame with `p0 = (0,0)`, exactly `c1 = p0 + 2/3 (p1 - p0)` and
`c2 = p2 + 2/3 (p1 - p2)` (the second expressed relative to the
endpoint, as the `++` coordinates of the controls record require), with
endpoint `p2`; the current point advances by the endpoint offsets.
(2) The cubic with these control points equals the quadratic at `t = 0`
and `t = 1` and has the same midpoint at `t = 1/2`. -/
theorem C5_quadratic_to_cubic :
    (∀ (st : St) (d : List Char) (ls : Option Char) (inc : Bool) (m : PathM) (y1 : ℚ)
      (d2 : DimM) (r : StepOk),
      pathReMatch d = some m → m.spec = some 'q' → m.y = some y1 →
      dimChop m.rest = .ok d2 →
      pathChopStep st d false ls inc = .ok r →
      r.emits = [.controls true (0 + 2/3 * (m.x - 0)) (0 + 2/3 * (y1 - 0))
          ((d2.x + 2/3 * (m.x - d2.x)) - d2.x) ((d2.y + 2/3 * (y1 - d2.y)) - d2.y)
          d2.x d2.y] ∧
      r.st = ⟨st.lastx + d2.x, st.lasty + d2.y, st.startx, st.starty⟩) ∧
    (∀ p0 p1 p2 : ℚ,
      cBez p0 (p0 + 2/3 * (p1 - p0)) (p2 + 2/3 * (p1 - p2)) p2 0 = p0 ∧
      cBez p0 (p0 + 2/3 * (p1 - p0)) (p2 + 2/3 * (p1 - p2)) p2 1 = p2 ∧
      cBez p0 (p0 + 2/3 * (p1 - p0)) (p2 + 2/3 * (p1 - p2)) p2 (1/2) =
        qBez p0 p1 p2 (1/2)) := by
  constructor
  · intro st d ls inc m y1 d2 r hpm hspec hy hd2 hstep
    rw [pathChopStep_of_match hpm] at hstep
    have hrs : resolveSpec m.spec ls inc = (some 'q', true) := by
      rw [hspec]
      cases ls with
      | none => with_unfolding_all rfl
      | some c => with_unfolding_all rfl
    rw [hrs] at hstep
    dsimp only at hstep
    have hdisp : execBranch st m (some 'q') true (true && !false) false =
        execQuad st m (some 'q') true true m.x y1 := by
      unfold execBranch
      rw [hy]
      rfl
    rw [hdisp] at hstep
    unfold execQuad at hstep
    rw [hd2] at hstep
    simp only [] at hstep
    rw [if_neg (by simp)] at hstep
    injection hstep with hstep
    subst hstep
    refine ⟨?_, rfl⟩
    have hc : Emit.controls true (2 * m.x / 3) (2 * y1 / 3) (2 * (m.x - d2.x) / 3)
        (2 * (y1 - d2.y) / 3) d2.x d2.y =
        Emit.controls true (0 + 2/3 * (m.x - 0)) (0 + 2/3 * (y1 - 0))
          ((d2.x + 2/3 * (m.x - d2.x)) - d2.x) ((d2.y + 2/3 * (y1 - d2.y)) - d2.y)
          d2.x d2.y := by
      congr 1 <;> ring
    rw [hc]
  · intro p0 p1 p2
    refine ⟨?_, ?_, ?_⟩ <;>
      simp only [cBez, qBez] <;> ring

/-- Witness for C5: the step `q 3,0 6,0` from `(10,20)` emits the cubic
controls `(2,0)`, `(-2,0)` (relative to the endpoint) and endpoint
`(6,0)`, matching the 2/3 rule, and advances the point to `(16,20)`. -/
theorem C5_witness :
    (⟨⟨16, 20, 7, 8⟩, none, false, some 'q', true, [.controls true 2 0 (-2) 0 6 0],
        some (.quad true 3 0 6 0)⟩ : StepOk).emits =
      [.controls true (0 + 2/3 * ((3 : ℚ) - 0)) (0 + 2/3 * ((0 : ℚ) - 0))
        (((6 : ℚ) + 2/3 * (3 - 6)) - 6) (((0 : ℚ) + 2/3 * (0 - 0)) - 0) 6 0] ∧
    (⟨⟨16, 20, 7, 8⟩, none, false, some 'q', true, [.controls true 2 0 (-2) 0 6 0],
        some (.quad true 3 0 6 0)⟩ : StepOk).st =
      ⟨(⟨10, 20, 7, 8⟩ : St).lastx + 6, (⟨10, 20, 7, 8⟩ : St).lasty + 0,
        (⟨10, 20, 7, 8⟩ : St).startx, (⟨10, 20, 7, 8⟩ : St).starty⟩ :=
  C5_quadratic_to_cubic.1 ⟨10, 20, 7, 8⟩ "q 3,0 6,0".data none false
    ⟨some 'q', 3, some 0, some "6,0".data⟩ 0 ⟨6, 0, none⟩
    ⟨⟨16, 20, 7, 8⟩, none, false, some 'q', true, [.controls true 2 0 (-2) 0 6 0],
      some (.quad true 3 0 6 0)⟩
    (by with_unfolding_all rfl) rfl rfl (by with_unfolding_all rfl)
    (by with_unfolding_all rfl)

/-- Claim C6, counterexample: the claim says an absolute quadratic `Q`
emits a straight line to the control point.  On `"M 0,0 Q 1,2 3,4"` the
control point is `(1,2)` and the endpoint `(3,4)`; the interpreter emits
the line `-- (3,4)` — to the endpoint, not the control point (the
control point appears only in the comment) — and the targets differ. -/
theorem C6_counterexample :
    runPath 10 "M 0,0 Q 1,2 3,4" =
      ⟨⟨3, 4, 0, 0⟩, [.draw false 0 0, .qline 3 4 1 2],
        [.move false 0 0, .quad false 1 2 3 4], none⟩ ∧
    ((3 : ℚ), (4 : ℚ)) ≠ ((1 : ℚ), (2 : ℚ)) := by
  constructor
  · with_unfolding_all rfl
  · norm_num

/-- Claim C6, amended: for every absolute quadratic instruction `Q` with
control operand `(m.x, y1)` and endpoint operand `(d2.x, d2.y)`, the
interpreter emits a straight line to the **endpoint** (the comment names
the intended control point), and the current point is set to the
endpoint. -/
theorem C6_amended :
    ∀ (st : St) (d : List Char) (ls : Option Char) (inc : Bool) (m : PathM) (y1 : ℚ)
      (d2 : DimM) (r : StepOk),
      pathReMatch d = some m → m.spec = some 'Q' → m.y = some y1 →
      dimChop m.rest = .ok d2 →
      pathChopStep st d false ls inc = .ok r →
      r.emits = [.qline d2.x d2.y m.x y1] ∧
      r.st = ⟨d2.x, d2.y, st.startx, st.starty⟩ ∧
      r.instr = some (.quad false m.x y1 d2.x d2.y) := by
  intro st d ls inc m y1 d2 r hpm hspec hy hd2 hstep
  rw [pathChopStep_of_match hpm] at hstep
  have hrs : resolveSpec m.spec ls inc = (some 'Q', false) := by
    rw [hspec]
    cases ls with
    | none => with_unfolding_all rfl
    | some c => with_unfolding_all rfl
  rw [hrs] at hstep
  dsimp only at hstep
  have hdisp : execBranch st m (some 'Q') false (false && !false) false =
      execQuad st m (some 'Q') false false m.x y1 := by
    unfold execBranch
    rw [hy]
    rfl
  rw [hdisp] at hstep
  unfold execQuad at hstep
  rw [hd2] at hstep
  simp only [] at hstep
  rw [if_pos trivial] at hstep
  injection hstep with hstep
  subst hstep
  exact ⟨rfl, rfl, rfl⟩

/-- Witness for C6: the step `Q 1,2 3,4` from `(9,9)` (subpath start
`(5,5)`) emits the straight line to the endpoint `(3,4)` with the
control point `(1,2)` only in the comment, and moves the point to
`(3,4)`. -/
theorem C6_witness :
    (⟨⟨3, 4, 5, 5⟩, none, false, some 'Q', false, [.qline 3 4 1 2],
        some (.quad false 1 2 3 4)⟩ : StepOk).emits = [.qline 3 4 1 2] ∧
    (⟨⟨3, 4, 5, 5⟩, none, false, some 'Q', false, [.qline 3 4 1 2],
        some (.quad false 1 2 3 4)⟩ : StepOk).st =
      ⟨3, 4, (⟨9, 9, 5, 5⟩ : St).startx, (⟨9, 9, 5, 5⟩ : St).starty⟩ ∧
    (⟨⟨3, 4, 5, 5⟩, none, false, some 'Q', false, [.qline 3 4 1 2],
        some (.quad false 1 2 3 4)⟩ : StepOk).instr =
      some (.quad false 1 2 3 4) :=
  C6_amended ⟨9, 9, 5, 5⟩ "Q 1,2 3,4".data none false
    ⟨some 'Q', 1, some 2, some "3,4".data⟩ 2 ⟨3, 4, none⟩
    ⟨⟨3, 4, 5, 5⟩, none, false, some 'Q', false, [.qline 3 4 1 2],
      some (.quad false 1 2 3 4)⟩
    (by with_unfolding_all rfl) rfl rfl (by with_unfolding_all rfl)
    (by with_unfolding_all rfl)

/-- Claim C3, counterexample: the claim speaks of the candidate selected
for emission, but no candidate is ever selected or emitted.  For the
feasible arc `a 2,2 0 1 1 2,2` (radii 2, `large_arc = 1`, `sweep = 1`,
chord `(2,2)`) the solver succeeds — the two candidate centres are
`(0,2)` and `(2,0)` — yet the run emits no arc record and aborts: inside
the `try`, `self.log('arcs: ', arcs, verbose=2)` (line 566) raises
TypeError before `path_arc` is reached, and the `except` handler raises
NameError on the undefined `_xrot`.  So on this feasible input there is
no emitted candidate whose direction and span could match the sweep and
large-arc flags, refuting the claim's emission half. -/
theorem C3_counterexample :
    svg_ellipse_arc 2 2 2 2 =
      .ok (⟨0, 2, -135, 0, 2, 2⟩, ⟨2, 0, -135, 90, 2, 2⟩) ∧
    runPath 10 "m 0,0 a 2,2 0 1 1 2,2" =
      ⟨⟨0, 0, 0, 0⟩, [.draw false 0 0], [.move true 0 0],
        some .nameErrorXrot⟩ := by
  constructor
  · with_unfolding_all rfl
  · with_unfolding_all rfl

/-- Claim C3, amended (the half that holds): whenever the arc solver
succeeds, both candidate centers it produces are genuinely equidistant
from the two chord endpoints in the elliptically adjusted metric — each
endpoint lies on the axis-aligned ellipse with radii `(rx, ry)` centred
at the candidate (stated with denominators cleared).  The emission half
of the claim is false: no candidate is ever selected for emission — the
arc branch aborts before `path_arc` on every parsed arc, see the
counterexample. -/
theorem C3_amended_equidistance :
    ∀ (x1 y1 rx ry : ℚ) (a1 a2 : ArcRec),
      svg_ellipse_arc x1 y1 rx ry = .ok (a1, a2) →
      ((0 - a1.cx) ^ 2 * ry ^ 2 + (0 - a1.cy) ^ 2 * rx ^ 2 = rx ^ 2 * ry ^ 2 ∧
        (x1 - a1.cx) ^ 2 * ry ^ 2 + (y1 - a1.cy) ^ 2 * rx ^ 2 = rx ^ 2 * ry ^ 2) ∧
      ((0 - a2.cx) ^ 2 * ry ^ 2 + (0 - a2.cy) ^ 2 * rx ^ 2 = rx ^ 2 * ry ^ 2 ∧
        (x1 - a2.cx) ^ 2 * ry ^ 2 + (y1 - a2.cy) ^ 2 * rx ^ 2 = rx ^ 2 * ry ^ 2) := by
  intro x1 y1 rx ry a1 a2 h
  obtain ⟨-, -, -, -, -, -, e1, e2, e3, e4⟩ := svg_ellipse_arc_spec h
  exact ⟨⟨e1, e2⟩, e3, e4⟩

/-- Witness for C3 (amended): for the chord `(2,2)` with radii `(2,2)`
the solver's candidates are centred at `(0,2)` and `(2,0)`, and both
chord endpoints lie on both candidate circles of radius 2. -/
theorem C3_witness :
    (((0 : ℚ) - 0) ^ 2 * 2 ^ 2 + ((0 : ℚ) - 2) ^ 2 * 2 ^ 2 = 2 ^ 2 * 2 ^ 2 ∧
      ((2 : ℚ) - 0) ^ 2 * 2 ^ 2 + ((2 : ℚ) - 2) ^ 2 * 2 ^ 2 = 2 ^ 2 * 2 ^ 2) ∧
    (((0 : ℚ) - 2) ^ 2 * 2 ^ 2 + ((0 : ℚ) - 0) ^ 2 * 2 ^ 2 = 2 ^ 2 * 2 ^ 2 ∧
      ((2 : ℚ) - 2) ^ 2 * 2 ^ 2 + ((2 : ℚ) - 0) ^ 2 * 2 ^ 2 = 2 ^ 2 * 2 ^ 2) :=
  C3_amended_equidistance 2 2 2 2 ⟨0, 2, -135, 0, 2, 2⟩ ⟨2, 0, -135, 90, 2, 2⟩
    (by with_unfolding_all rfl)
